import Mathlib

/-!
Verification of the cursor-buddy-mcp live-reload pipeline.

Go strings are modelled as lists of characters (`GoStr`), `time.Time` as an
integer instant (`GoTime`), and the file system as explicit data passed to the
load operations.  External libraries (the bleve search engine, `crypto/md5`,
`encoding/json`, the clock) are modelled at their interface, per the spec's
boundary; all control flow of the repository's own code is translated
faithfully from the Go source.
-/

abbrev GoStr := List Char

def str (s : String) : GoStr := s.data

/-- `time.Time` modelled as an integer instant; `After` is `>`, `Before` is `<`. -/
abbrev GoTime := Int

/-- `strings.HasPrefix`. -/
def goStartsWith (s p : GoStr) : Bool := p.isPrefixOf s

/-- `strings.HasSuffix`. -/
def goEndsWith (s p : GoStr) : Bool := p.isSuffixOf s

/-- `strings.TrimPrefix`: drops `p` from the front of `s` when present. -/
def goTrimStart (s p : GoStr) : GoStr :=
  if p.isPrefixOf s then s.drop p.length else s

/-- `strings.TrimSuffix`: drops `p` from the end of `s` when present. -/
def goTrimEnd (s p : GoStr) : GoStr :=
  if p.isSuffixOf s then s.take (s.length - p.length) else s

/-- `strings.Split s "\n"`: the lines of `s`. -/
def goLines (s : GoStr) : List GoStr := s.splitOn '\n'

/-- `strings.Join lines "\n"`. -/
def goJoinLines (lines : List GoStr) : GoStr := List.intercalate (str "\n") lines

/-- White space for `unicode.IsSpace` / `strings.TrimSpace` and
`strings.Fields` (the ASCII white-space characters; the inputs here are ASCII). -/
def isGoSpace (c : Char) : Bool :=
  c = ' ' || c = '\t' || c = '\n' || c = '\r' || c = '\x0c' || c = '\x0b'

/-- `strings.TrimSpace`. -/
def goTrimSpace (s : GoStr) : GoStr :=
  ((s.dropWhile isGoSpace).reverse.dropWhile isGoSpace).reverse

/-- `strings.Contains s sub`. -/
def goContains (s sub : GoStr) : Bool :=
  match s with
  | [] => sub.isEmpty
  | c :: rest => sub.isPrefixOf (c :: rest) || goContains rest sub

/-- `strings.Replace s old new 1`: replace the first occurrence of `old`. -/
def goReplaceOnce (s old new : GoStr) : GoStr :=
  match s with
  | [] => if old.isEmpty then new else []
  | c :: rest =>
    if old.isPrefixOf (c :: rest) then new ++ (c :: rest).drop old.length
    else c :: goReplaceOnce rest old new

/-- `strings.ToLower` (character-wise). -/
def goToLower (s : GoStr) : GoStr := s.map Char.toLower

/-- `strings.ToUpper` (character-wise). -/
def goToUpper (s : GoStr) : GoStr := s.map Char.toUpper

/-- `strings.Fields`: splits around runs of white space. -/
def goFieldsAux : GoStr → GoStr → List GoStr
  | [], acc => if acc.isEmpty then [] else [acc.reverse]
  | c :: rest, acc =>
    if isGoSpace c then
      if acc.isEmpty then goFieldsAux rest [] else acc.reverse :: goFieldsAux rest []
    else goFieldsAux rest (c :: acc)

def goFields (s : GoStr) : List GoStr := goFieldsAux s []

/-- `strings.Split` with a (non-empty) separator string, by steps bounded with
explicit fuel so that the definition is structural and evaluates in the kernel. -/
def goSplitSeqFuel (sep : GoStr) : Nat → GoStr → GoStr → List GoStr
  | 0, s, acc => [acc.reverse ++ s]
  | fuel + 1, s, acc =>
    match s with
    | [] => [acc.reverse]
    | c :: rest =>
      if sep.isPrefixOf (c :: rest) then
        acc.reverse :: goSplitSeqFuel sep fuel ((c :: rest).drop sep.length) []
      else goSplitSeqFuel sep fuel rest (c :: acc)

def goSplitSeq (s sep : GoStr) : List GoStr := goSplitSeqFuel sep (s.length + 1) s []

/-- `fmt.Sprintf` of a natural number (`%d`). -/
def natRepr (n : Nat) : GoStr := (Nat.repr n).data

/-- `filepath.Base` (Unix separators), translated from Go's `path/filepath`. -/
def filepathBase (path : GoStr) : GoStr :=
  if path.isEmpty then str "."
  else
    let p := path.reverse.dropWhile (· = '/') |>.reverse
    if p.isEmpty then str "/"
    else (p.reverse.takeWhile (· ≠ '/')).reverse

/-- `filepath.Join dir name` (the paths used here are already clean). -/
def filepathJoin (dir name : GoStr) : GoStr := dir ++ str "/" ++ name

/-- `filepath.Ext`: the suffix of the base name starting at its final dot,
empty when there is none. -/
def filepathExt (path : GoStr) : GoStr :=
  let base := (filepathBase path).reverse
  if base.contains '.' then ('.' :: base.takeWhile (· ≠ '.')).reverse else []

/-!  ## File watcher (src/internal/monitor/file_monitor.go)  -/

/-- An `fsnotify.Op` bit mask, one flag per operation bit. -/
structure FsnotifyOp where
  create : Bool
  write : Bool
  remove : Bool
  rename : Bool
  chmod : Bool
deriving DecidableEq

/-- An `fsnotify.Event`: the affected path and the operation mask. -/
structure FsnotifyEvent where
  name : GoStr
  op : FsnotifyOp
deriving DecidableEq

/-- `FileMonitor.isRelevantEvent`, translated from the source. -/
def isRelevantEvent (event : FsnotifyEvent) : Bool :=
  if goStartsWith (filepathBase event.name) (str ".")
      || goEndsWith event.name (str "~")
      || goEndsWith event.name (str ".swp")
      || goEndsWith event.name (str ".tmp") then false
  else if !goEndsWith event.name (str ".md")
      && !goEndsWith event.name (str ".json")
      && !goEndsWith event.name (str ".sql") then false
  else if !event.op.write && !event.op.create then false
  else true

/-- The relevance condition as the spec words it (the claim side of C4). -/
def relevantEventSpec (event : FsnotifyEvent) : Prop :=
  ¬ goStartsWith (filepathBase event.name) (str ".") = true
  ∧ ¬ goEndsWith event.name (str "~") = true
  ∧ ¬ goEndsWith event.name (str ".swp") = true
  ∧ ¬ goEndsWith event.name (str ".tmp") = true
  ∧ (goEndsWith event.name (str ".md") = true
      ∨ goEndsWith event.name (str ".json") = true
      ∨ goEndsWith event.name (str ".sql") = true)
  ∧ (event.op.create = true ∨ event.op.write = true)

/-!  ## Data model (src/internal/models/buddy.go)  -/

/-- `models.Rule`. -/
structure Rule where
  id : GoStr
  category : GoStr
  title : GoStr
  description : GoStr
  priority : GoStr
  content : GoStr
  filePath : GoStr
  updatedAt : GoTime
deriving DecidableEq

/-- `models.Knowledge`. -/
structure Knowledge where
  id : GoStr
  title : GoStr
  category : GoStr
  content : GoStr
  tags : List GoStr
  filePath : GoStr
  updatedAt : GoTime
deriving DecidableEq

/-- `models.Column`. -/
structure Column where
  name : GoStr
  type : GoStr
  nullable : Bool
  defaultValue : GoStr
  description : GoStr
deriving DecidableEq

/-- `models.Index`. -/
structure TableIndex where
  name : GoStr
  columns : List GoStr
  unique : Bool
deriving DecidableEq

/-- `models.Table`. -/
structure Table where
  name : GoStr
  schema : GoStr
  columns : List Column
  indexes : List TableIndex
  description : GoStr
deriving DecidableEq

/-- `models.DatabaseInfo`. -/
structure DatabaseInfo where
  type : GoStr
  schemaPath : GoStr
  erdPath : GoStr
  connectionInfo : GoStr
  tables : List Table
  updatedAt : GoTime
deriving DecidableEq

/-- `models.Todo`. -/
structure Todo where
  id : GoStr
  feature : GoStr
  task : GoStr
  completed : Bool
  filePath : GoStr
  lineNumber : Int
  updatedAt : GoTime
deriving DecidableEq

/-- `models.Change`. -/
structure Change where
  filePath : GoStr
  changeType : GoStr
  before : GoStr
  after : GoStr
deriving DecidableEq

/-- `models.HistoryEntry`. -/
structure HistoryEntry where
  id : GoStr
  timestamp : GoTime
  feature : GoStr
  description : GoStr
  changes : List Change
  reasoning : GoStr
  filePath : GoStr
deriving DecidableEq

/-- `models.Backup`. -/
structure Backup where
  id : GoStr
  originalPath : GoStr
  backupPath : GoStr
  timestamp : GoTime
  changeContext : GoStr
  reasoning : GoStr
  fileSize : Int
deriving DecidableEq

/-- The md5 hex digest of `crypto/md5` (Go standard library, external to this
repository) is modelled as a deterministic digest of the input bytes — a hex
dump of the character codes.  Only determinism of the digest is relevant to the
properties proved here; its numeric content never matters. -/
def md5Hex (s : GoStr) : GoStr :=
  s.foldr (fun c acc => Nat.toDigits 16 c.toNat ++ acc) []

/-!  ## Search documents (internal/search document types)  -/

/-- `search.RuleDocument`. -/
structure RuleDocument where
  id : GoStr
  title : GoStr
  category : GoStr
  content : GoStr
  priority : GoStr
  description : GoStr
deriving DecidableEq

/-- `search.FromRule`. -/
def FromRule (rule : Rule) : RuleDocument :=
  { id := rule.id, title := rule.title, category := rule.category
    content := rule.content, priority := rule.priority
    description := rule.description }

/-- `search.KnowledgeDocument`. -/
structure KnowledgeDocument where
  id : GoStr
  title : GoStr
  category : GoStr
  content : GoStr
  tags : GoStr
deriving DecidableEq

/-- `search.FromKnowledge`. -/
def FromKnowledge (knowledge : Knowledge) : KnowledgeDocument :=
  { id := knowledge.id, title := knowledge.title, category := knowledge.category
    content := knowledge.content
    tags := List.intercalate (str ", ") knowledge.tags }

/-- `search.TodoDocument`. -/
structure TodoDocument where
  id : GoStr
  task : GoStr
  feature : GoStr
  completed : Bool
  status : GoStr
deriving DecidableEq

/-- `search.FromTodo`. -/
def FromTodo (todo : Todo) : TodoDocument :=
  { id := todo.id, task := todo.task, feature := todo.feature
    completed := todo.completed
    status := if todo.completed then str "completed" else str "pending" }

/-- `search.HistoryDocument`. -/
structure HistoryDocument where
  id : GoStr
  feature : GoStr
  description : GoStr
  reasoning : GoStr
  files : GoStr
  timestamp : GoTime
deriving DecidableEq

/-- `search.FromHistoryEntry`. -/
def FromHistoryEntry (entry : HistoryEntry) : HistoryDocument :=
  { id := entry.id, feature := entry.feature, description := entry.description
    reasoning := entry.reasoning
    files := List.intercalate (str ", ") (entry.changes.map (·.filePath))
    timestamp := entry.timestamp }

/-- `search.DatabaseDocument`. -/
structure DatabaseDocument where
  id : GoStr
  tableName : GoStr
  columns : GoStr
  indexes : GoStr
  description : GoStr
deriving DecidableEq

/-- `search.FromTable`. -/
def FromTable (table : Table) : DatabaseDocument :=
  { id := table.name, tableName := table.name
    columns := List.intercalate (str ", ")
      (table.columns.map (fun col => col.name ++ str " " ++ col.type))
    indexes := List.intercalate (str ", ") (table.indexes.map (·.name))
    description := table.description }

/-- `search.BackupDocument`. -/
structure BackupDocument where
  id : GoStr
  originalPath : GoStr
  context : GoStr
  reasoning : GoStr
  timestamp : GoTime
deriving DecidableEq

/-- `search.FromBackup`. -/
def FromBackup (backup : Backup) : BackupDocument :=
  { id := backup.id, originalPath := backup.originalPath
    context := backup.changeContext, reasoning := backup.reasoning
    timestamp := backup.timestamp }

/-- A document stored in some bleve index (the union of the six domain
document types). -/
inductive SearchDoc
  | rule (d : RuleDocument)
  | knowledge (d : KnowledgeDocument)
  | todo (d : TodoDocument)
  | history (d : HistoryDocument)
  | database (d : DatabaseDocument)
  | backup (d : BackupDocument)
deriving DecidableEq

/-!  ## Search engine facade (`search.SearchManager`)

The concrete bleve engine is external; it is modelled at its contract: each
named index is a keyed store of documents, and its `Index` call may also fail
for engine-internal reasons, which the model makes explicit as a per-domain
fault set (`faults`): the ids on which the engine's `Index` call reports an
error.  The facade's own control flow (map lookup, error construction, index
recreation) is translated from the source. -/

/-- Association-list lookup (a `map[string]V` read). -/
def lookupA {β : Type} (k : GoStr) : List (GoStr × β) → Option β
  | [] => none
  | (k', v) :: rest => if k' = k then some v else lookupA k rest

/-- Association-list insert-or-replace (a `map[string]V` write). -/
def insertA {β : Type} (k : GoStr) (v : β) : List (GoStr × β) → List (GoStr × β)
  | [] => [(k, v)]
  | (k', v') :: rest => if k' = k then (k, v) :: rest else (k', v') :: insertA k v rest

/-- Association-list delete (`bleve.Index.Delete`; a no-op when absent). -/
def eraseA {β : Type} (k : GoStr) : List (GoStr × β) → List (GoStr × β)
  | [] => []
  | (k', v') :: rest => if k' = k then rest else (k', v') :: eraseA k rest

/-- One bleve index: its stored documents, keyed by document id. -/
structure BleveIndex where
  docs : List (GoStr × SearchDoc)
deriving DecidableEq

/-- `search.SearchManager`: one named index per domain, plus the fault model of
the opaque engine (per domain, the ids on which `Index` errors). -/
structure SearchManager where
  indexes : List (GoStr × BleveIndex)
  faults : List (GoStr × List GoStr)
deriving DecidableEq

def IndexTypeRules : GoStr := str "rules"
def IndexTypeKnowledge : GoStr := str "knowledge"
def IndexTypeTodos : GoStr := str "todos"
def IndexTypeHistory : GoStr := str "history"
def IndexTypeDatabase : GoStr := str "database"
def IndexTypeBackups : GoStr := str "backups"

/-- The `"index %s not found"` error of every facade lookup miss. -/
def indexNotFoundMsg (indexType : GoStr) : GoStr :=
  str "index " ++ indexType ++ str " not found"

/-- `SearchManager.IndexDocument`: fails when the named index does not exist;
otherwise the engine inserts or overwrites the document under `id`, or reports
an engine-internal error (the fault set). -/
def SearchManager.IndexDocument (sm : SearchManager) (indexType id : GoStr)
    (doc : SearchDoc) : Except GoStr SearchManager :=
  match lookupA indexType sm.indexes with
  | none => .error (indexNotFoundMsg indexType)
  | some idx =>
    if id ∈ ((lookupA indexType sm.faults).getD []) then
      .error (str "bleve: engine error")
    else
      .ok { sm with indexes := insertA indexType ⟨insertA id doc idx.docs⟩ sm.indexes }

/-- `SearchManager.UpdateDocument`: bleve's `Index` updates in place, so this
is `IndexDocument` (as in the source). -/
def SearchManager.UpdateDocument (sm : SearchManager) (indexType id : GoStr)
    (doc : SearchDoc) : Except GoStr SearchManager :=
  sm.IndexDocument indexType id doc

/-- `SearchManager.DeleteDocument`. -/
def SearchManager.DeleteDocument (sm : SearchManager) (indexType id : GoStr) :
    Except GoStr SearchManager :=
  match lookupA indexType sm.indexes with
  | none => .error (indexNotFoundMsg indexType)
  | some idx =>
    .ok { sm with indexes := insertA indexType ⟨eraseA id idx.docs⟩ sm.indexes }

/-- `SearchManager.Search`: fails when the named index does not exist; the
ranked result computation itself belongs to the opaque engine and is modelled
as the index's document list. -/
def SearchManager.Search (sm : SearchManager) (indexType : GoStr)
    (queryStr : GoStr) (size : Nat) : Except GoStr (List (GoStr × SearchDoc)) :=
  match lookupA indexType sm.indexes with
  | none => .error (indexNotFoundMsg indexType)
  | some idx => .ok idx.docs

/-- `SearchManager.SearchWithFilters`: same lookup discipline as `Search`. -/
def SearchManager.SearchWithFilters (sm : SearchManager) (indexType : GoStr)
    (queryStr : GoStr) (filters : List (GoStr × GoStr)) (size : Nat) :
    Except GoStr (List (GoStr × SearchDoc)) :=
  match lookupA indexType sm.indexes with
  | none => .error (indexNotFoundMsg indexType)
  | some idx => .ok idx.docs

/-- `SearchManager.GetDocumentCount`. -/
def SearchManager.GetDocumentCount (sm : SearchManager) (indexType : GoStr) :
    Except GoStr Nat :=
  match lookupA indexType sm.indexes with
  | none => .error (indexNotFoundMsg indexType)
  | some idx => .ok idx.docs.length

/-- `SearchManager.ReindexAll`: closes the existing index when present (a
no-op here), removes its directory, and reinitializes it empty.  Note that the
source performs no existence check before `initializeIndex`, so a domain name
with no index gets a fresh empty index rather than an error. -/
def SearchManager.ReindexAll (sm : SearchManager) (indexType : GoStr) :
    Except GoStr SearchManager :=
  .ok { sm with indexes := insertA indexType ⟨[]⟩ sm.indexes }

/-!  ## Domain stores

Each handler holds its directory path and its in-memory collection.  A load
takes the directory's contents as data (`none` models `os.IsNotExist`), mutates
the collection as the Go code does (clearing it first, appending as it parses),
and returns the final — possibly partial — state together with the optional
error, exactly mirroring Go's in-place mutation plus returned `error`. -/

/-- A directory entry as `ioutil.ReadDir` lists it (name, content, mod time). -/
structure GoFile where
  name : GoStr
  content : GoStr
  mtime : GoTime
  isDir : Bool
deriving DecidableEq

/-- A file as `filepath.Walk` visits it (full path plus base name). -/
structure WalkEntry where
  path : GoStr
  name : GoStr
  content : GoStr
  isDir : Bool
deriving DecidableEq

/-- The outcome of a load: the handler state after the call (partial when the
load aborted), the search-manager state, and the returned error if any. -/
structure LoadOutcome (σ : Type) where
  state : σ
  sm : SearchManager
  err : Option GoStr
deriving DecidableEq

/-!  ### Rules (src/internal/handlers/rules.go)  -/

structure RulesHandler where
  path : GoStr
  rules : List Rule
deriving DecidableEq

/-- The metadata loop of `loadRuleFile`: walks the lines, recording the last
`# ` title, `Category: ` and `Priority: ` lines, and stops at the first empty
line past index 0, whose successor index becomes `descriptionStart` (0 when no
such line occurs). -/
def ruleScanAux : List GoStr → Nat → GoStr → GoStr → GoStr →
    GoStr × GoStr × GoStr × Nat
  | [], _, title, category, priority => (title, category, priority, 0)
  | line :: rest, i, title, category, priority =>
    if goStartsWith line (str "# ") then
      ruleScanAux rest (i + 1) (goTrimStart line (str "# ")) category priority
    else if goStartsWith line (str "Category: ") then
      ruleScanAux rest (i + 1) title (goTrimStart line (str "Category: ")) priority
    else if goStartsWith line (str "Priority: ") then
      ruleScanAux rest (i + 1) title category (goTrimStart line (str "Priority: "))
    else if line.isEmpty ∧ i > 0 then
      (title, category, priority, i + 1)
    else
      ruleScanAux rest (i + 1) title category priority

/-- `RulesHandler.loadRuleFile` (the file's bytes and mod time are given). -/
def loadRuleFile (filePath content : GoStr) (mtime : GoTime) : Rule :=
  let lines := goLines content
  let scan := ruleScanAux lines 0 [] [] []
  let descriptionStart := scan.2.2.2
  let description :=
    if descriptionStart < lines.length then goJoinLines (lines.drop descriptionStart)
    else []
  { id := md5Hex filePath
    category := scan.2.1
    title := scan.1
    description := description
    priority := scan.2.2.1
    content := content
    filePath := filePath
    updatedAt := mtime }

/-- The per-file loop of `RulesHandler.Load`: parse each `.md` file, append it
to the collection, and index it, aborting on the first indexing error (with
the partially rebuilt collection left in place). -/
def rulesLoadLoop (path : GoStr) : List GoFile → List Rule → SearchManager →
    List Rule × SearchManager × Option GoStr
  | [], acc, sm => (acc, sm, none)
  | file :: rest, acc, sm =>
    if !file.isDir && goEndsWith file.name (str ".md") then
      let rule := loadRuleFile (filepathJoin path file.name) file.content file.mtime
      let acc := acc ++ [rule]
      match sm.IndexDocument IndexTypeRules rule.id (SearchDoc.rule (FromRule rule)) with
      | .error e =>
        (acc, sm, some (str "failed to index rule " ++ rule.id ++ str ": " ++ e))
      | .ok sm => rulesLoadLoop path rest acc sm
    else rulesLoadLoop path rest acc sm

/-- `RulesHandler.Load`: clear the collection, rebuild the rules index, then
parse and index every `.md` file of the rules directory (`none` models the
directory not existing, which the source treats as zero records). -/
def RulesHandler.Load (rh : RulesHandler) (sm : SearchManager)
    (dir : Option (List GoFile)) : LoadOutcome RulesHandler :=
  let rh := { rh with rules := [] }
  match sm.ReindexAll IndexTypeRules with
  | .error e => ⟨rh, sm, some (str "failed to reindex rules: " ++ e)⟩
  | .ok sm =>
    match dir with
    | none => ⟨rh, sm, none⟩
    | some files =>
      let result := rulesLoadLoop rh.path files [] sm
      ⟨{ rh with rules := result.1 }, result.2.1, result.2.2⟩

/-!  ### Knowledge (internal/handlers, `KnowledgeHandler`)  -/

structure KnowledgeHandler where
  path : GoStr
  knowledge : List Knowledge
deriving DecidableEq

/-- The metadata loop of `loadKnowledgeFile` (title, category, `Tags: ` split
on `", "`, stop at the first empty line past index 0). -/
def knowledgeScanAux : List GoStr → Nat → GoStr → GoStr → List GoStr →
    GoStr × GoStr × List GoStr × Nat
  | [], _, title, category, tags => (title, category, tags, 0)
  | line :: rest, i, title, category, tags =>
    if goStartsWith line (str "# ") then
      knowledgeScanAux rest (i + 1) (goTrimStart line (str "# ")) category tags
    else if goStartsWith line (str "Category: ") then
      knowledgeScanAux rest (i + 1) title (goTrimStart line (str "Category: ")) tags
    else if goStartsWith line (str "Tags: ") then
      knowledgeScanAux rest (i + 1) title category
        (goSplitSeq (goTrimStart line (str "Tags: ")) (str ", "))
    else if line.isEmpty ∧ i > 0 then
      (title, category, tags, i + 1)
    else
      knowledgeScanAux rest (i + 1) title category tags

/-- `filepath.Rel base target` for the clean, slash-separated paths used here:
drops `base ++ "/"` from the front when possible. -/
def filepathRel (base target : GoStr) : GoStr :=
  goTrimStart target (base ++ str "/")

/-- `KnowledgeHandler.loadKnowledgeFile`. -/
def loadKnowledgeFile (basePath filePath content : GoStr) (mtime : GoTime) :
    Knowledge :=
  let lines := goLines content
  let scan := knowledgeScanAux lines 0 [] [] []
  let contentStart := scan.2.2.2
  let contentText :=
    if contentStart < lines.length then goJoinLines (lines.drop contentStart)
    else []
  let category0 := scan.2.1
  let category :=
    if category0.isEmpty then
      let parts := (filepathRel basePath filePath).splitOn '/'
      if parts.length > 1 then parts.headI else category0
    else category0
  { id := md5Hex filePath
    title := scan.1
    category := category
    content := contentText
    tags := scan.2.2.1
    filePath := filePath
    updatedAt := mtime }

/-- The walk body of `KnowledgeHandler.Load` (mod times of knowledge files are
irrelevant to the claims and modelled as 0). -/
def knowledgeLoadLoop (basePath : GoStr) : List WalkEntry → List Knowledge →
    SearchManager → List Knowledge × SearchManager × Option GoStr
  | [], acc, sm => (acc, sm, none)
  | entry :: rest, acc, sm =>
    if !entry.isDir && goEndsWith entry.name (str ".md") then
      let kb := loadKnowledgeFile basePath entry.path entry.content 0
      let acc := acc ++ [kb]
      match sm.IndexDocument IndexTypeKnowledge kb.id
          (SearchDoc.knowledge (FromKnowledge kb)) with
      | .error e =>
        (acc, sm, some (str "failed to index knowledge " ++ kb.id ++ str ": " ++ e))
      | .ok sm => knowledgeLoadLoop basePath rest acc sm
    else knowledgeLoadLoop basePath rest acc sm

/-- `KnowledgeHandler.Load`. -/
def KnowledgeHandler.Load (kh : KnowledgeHandler) (sm : SearchManager)
    (dir : Option (List WalkEntry)) : LoadOutcome KnowledgeHandler :=
  let kh := { kh with knowledge := [] }
  match sm.ReindexAll IndexTypeKnowledge with
  | .error e => ⟨kh, sm, some (str "failed to reindex knowledge: " ++ e)⟩
  | .ok sm =>
    match dir with
    | none => ⟨kh, sm, none⟩
    | some entries =>
      let result := knowledgeLoadLoop kh.path entries [] sm
      ⟨{ kh with knowledge := result.1 }, result.2.1, result.2.2⟩

/-!  ### Database (src/internal/handlers/database.go)

`parseSchema` matches `(?i)CREATE\s+TABLE\s+(?:IF\s+NOT\s+EXISTS\s+)?(\w+)\s*\((.*?)\);`
and `parseIndexes` matches `(?i)CREATE\s+(UNIQUE\s+)?INDEX\s+(\w+)\s+ON\s+<table>\s*\((.*?)\)`
with Go's `regexp` (RE2 syntax, leftmost-first semantics).  The matchers below
implement exactly these two patterns: case-insensitive literals, `\s` is
`[\t\n\f\r ]`, `\w` is `[0-9A-Za-z_]`, `.` does **not** match a newline
(no `s` flag is set in the source), `\w+` and `\s+` are effectively
deterministic here because each is followed by a disjoint character class, the
optional groups are tried greedily with fallback, and `(.*?)` is lazy — the
body ends at the first terminator reachable without crossing a newline. -/

/-- `\w` of Go's regexp. -/
def isWordChar (c : Char) : Bool :=
  ('a' ≤ c ∧ c ≤ 'z') ∨ ('A' ≤ c ∧ c ≤ 'Z') ∨ ('0' ≤ c ∧ c ≤ '9') ∨ c = '_'

/-- `\s` of Go's regexp: `[\t\n\f\r ]`. -/
def isReSpace (c : Char) : Bool :=
  c = '\t' || c = '\n' || c = '\x0c' || c = '\r' || c = ' '

/-- Match a literal case-insensitively, returning the rest of the input. -/
def matchCI : GoStr → GoStr → Option GoStr
  | [], s => some s
  | _ :: _, [] => none
  | p :: ps, c :: cs => if p.toLower = c.toLower then matchCI ps cs else none

/-- `\s+`: at least one regexp space, consumed maximally. -/
def reSpaces1 : GoStr → Option GoStr
  | [] => none
  | c :: rest => if isReSpace c then some (rest.dropWhile isReSpace) else none

/-- `(\w+)`: a maximal non-empty word, with the rest of the input. -/
def reWord1 (s : GoStr) : Option (GoStr × GoStr) :=
  let w := s.takeWhile isWordChar
  if w.isEmpty then none else some (w, s.drop w.length)

/-- `(.*?)\);` — the lazy body of a CREATE TABLE statement: the shortest
newline-free prefix followed by `");"`, or no match. -/
def lazyBodySemi : GoStr → Option (GoStr × GoStr)
  | ')' :: ';' :: rest => some ([], rest)
  | '\n' :: _ => none
  | [] => none
  | c :: rest =>
    match lazyBodySemi rest with
    | some (body, after) => some (c :: body, after)
    | none => none

/-- `(.*?)\)` — the lazy body of a CREATE INDEX column list: the shortest
newline-free prefix followed by `")"`. -/
def lazyBodyParen : GoStr → Option (GoStr × GoStr)
  | ')' :: rest => some ([], rest)
  | '\n' :: _ => none
  | [] => none
  | c :: rest =>
    match lazyBodyParen rest with
    | some (body, after) => some (c :: body, after)
    | none => none

/-- The optional `IF\s+NOT\s+EXISTS\s+` group. -/
def matchINE (s : GoStr) : Option GoStr :=
  (matchCI (str "IF") s).bind fun s1 =>
  (reSpaces1 s1).bind fun s2 =>
  (matchCI (str "NOT") s2).bind fun s3 =>
  (reSpaces1 s3).bind fun s4 =>
  (matchCI (str "EXISTS") s4).bind fun s5 =>
  reSpaces1 s5

/-- `(\w+)\s*\((.*?)\);` — the common tail of the CREATE TABLE pattern:
table name, optional spaces, the parenthesized lazy body. -/
def matchTableTail (s : GoStr) : Option (GoStr × GoStr × GoStr) :=
  (reWord1 s).bind fun (name, s1) =>
    match s1.dropWhile isReSpace with
    | '(' :: s2 =>
      (lazyBodySemi s2).map fun (body, after) => (name, body, after)
    | _ => none

/-- Attempt the whole CREATE TABLE pattern at the start of `s`, producing the
captured name and body and the input after the match. -/
def matchCreateTableAt (s : GoStr) : Option (GoStr × GoStr × GoStr) :=
  (matchCI (str "CREATE") s).bind fun s1 =>
  (reSpaces1 s1).bind fun s2 =>
  (matchCI (str "TABLE") s2).bind fun s3 =>
  (reSpaces1 s3).bind fun s4 =>
    match (matchINE s4).bind matchTableTail with
    | some r => some r
    | none => matchTableTail s4

/-- `FindAllStringSubmatch` of the CREATE TABLE pattern: scan left to right,
emit each leftmost match and continue after it (fuel = remaining length). -/
def scanCreateTablesFuel : Nat → GoStr → List (GoStr × GoStr)
  | 0, _ => []
  | fuel + 1, s =>
    match s with
    | [] => []
    | c :: rest =>
      match matchCreateTableAt (c :: rest) with
      | some (name, body, after) => (name, body) :: scanCreateTablesFuel fuel after
      | none => scanCreateTablesFuel fuel rest

def scanCreateTables (sql : GoStr) : List (GoStr × GoStr) :=
  scanCreateTablesFuel sql.length sql

/-- Attempt the CREATE INDEX pattern (for a fixed table name) at the start of
`s`: returns the `UNIQUE\s+` capture (empty when absent), the index name, and
the column-list capture, with the input after the match. -/
def matchCreateIndexAt (tableName s : GoStr) :
    Option (GoStr × GoStr × GoStr × GoStr) :=
  (matchCI (str "CREATE") s).bind fun s1 =>
  (reSpaces1 s1).bind fun s2 =>
    let tail := fun (uniqueCap : GoStr) (s3 : GoStr) =>
      (matchCI (str "INDEX") s3).bind fun s4 =>
      (reSpaces1 s4).bind fun s5 =>
      (reWord1 s5).bind fun (idxName, s6) =>
      (reSpaces1 s6).bind fun s7 =>
      (matchCI (str "ON") s7).bind fun s8 =>
      (reSpaces1 s8).bind fun s9 =>
      (matchCI tableName s9).bind fun s10 =>
        match s10.dropWhile isReSpace with
        | '(' :: s11 =>
          (lazyBodyParen s11).map fun (cols, after) =>
            (uniqueCap, idxName, cols, after)
        | _ => none
    match (matchCI (str "UNIQUE") s2).bind (fun su =>
        (reSpaces1 su).bind fun su2 =>
          tail (str "UNIQUE" ++ (su.take (su.length - su2.length))) su2) with
    | some r => some r
    | none => tail [] s2

/-- `FindAllStringSubmatch` of the CREATE INDEX pattern. -/
def scanCreateIndexesFuel (tableName : GoStr) :
    Nat → GoStr → List (GoStr × GoStr × GoStr)
  | 0, _ => []
  | fuel + 1, s =>
    match s with
    | [] => []
    | c :: rest =>
      match matchCreateIndexAt tableName (c :: rest) with
      | some (uniqueCap, idxName, cols, after) =>
        (uniqueCap, idxName, cols) :: scanCreateIndexesFuel tableName fuel after
      | none => scanCreateIndexesFuel tableName fuel rest

/-- `DatabaseHandler.parseIndexes`: every CREATE INDEX match on `tableName`
becomes an index record; `Unique` compares the raw `(UNIQUE\s+)` capture —
trailing spaces included — against `"UNIQUE"`, and the column list is split on
commas after removing spaces. -/
def parseIndexes (sql tableName : GoStr) : List TableIndex :=
  (scanCreateIndexesFuel tableName sql.length sql).map fun m =>
    { name := m.2.1
      unique := goToUpper m.1 = str "UNIQUE"
      columns := (m.2.2.filter (· ≠ ' ')).splitOn ',' }

/-- `(?i)DEFAULT\s+([^,\s]+)` — the capture of the first match of the default
regex in a (comma-free) column line, scanning left to right. -/
def defaultCaptureFuel : Nat → GoStr → GoStr
  | 0, _ => []
  | fuel + 1, s =>
    match s with
    | [] => []
    | c :: rest =>
      match (matchCI (str "DEFAULT") (c :: rest)).bind reSpaces1 with
      | some s1 =>
        let tok := s1.takeWhile (fun ch => !isReSpace ch && ch ≠ ',')
        if tok.isEmpty then defaultCaptureFuel fuel rest else tok
      | none => defaultCaptureFuel fuel rest

/-- `DatabaseHandler.parseColumns`, per line: skip blank and constraint lines,
then read name, type, nullability and default value. -/
def parseColumnLine (line : GoStr) : Option Column :=
  let line := goTrimSpace line
  if line.isEmpty
      || goStartsWith (goToUpper line) (str "PRIMARY KEY")
      || goStartsWith (goToUpper line) (str "FOREIGN KEY")
      || goStartsWith (goToUpper line) (str "UNIQUE")
      || goStartsWith (goToUpper line) (str "INDEX")
      || goStartsWith (goToUpper line) (str "KEY")
      || goStartsWith (goToUpper line) (str "CONSTRAINT") then none
  else
    match goFields line with
    | p0 :: p1 :: _ =>
      some { name := p0, type := p1
             nullable := !goContains (goToUpper line) (str "NOT NULL")
             defaultValue :=
               if goContains (goToUpper line) (str "DEFAULT") then
                 defaultCaptureFuel line.length line
               else []
             description := [] }
    | _ => none

def parseColumns (definition : GoStr) : List Column :=
  (definition.splitOn ',').filterMap parseColumnLine

/-- `DatabaseHandler.parseSchema`. -/
def parseSchema (content : GoStr) : List Table :=
  (scanCreateTables content).map fun m =>
    { name := m.1
      schema := []
      columns := parseColumns m.2
      indexes := parseIndexes content m.1
      description := [] }

/-- The database directory as `DatabaseHandler.Load` probes it: the optional
`schema.sql` content, which of the four ERD files exist, and the optional
`connection.md` content. -/
structure DatabaseDir where
  schema : Option GoStr
  erdPng : Bool
  erdJpg : Bool
  erdSvg : Bool
  erdPdf : Bool
  connection : Option GoStr
deriving DecidableEq

structure DatabaseHandler where
  path : GoStr
  dbInfo : Option DatabaseInfo
deriving DecidableEq

/-- The per-table indexing loop of `DatabaseHandler.Load`: an indexing error is
printed and skipped (`// Log error but continue`), never returned. -/
def databaseIndexLoop : List Table → SearchManager → SearchManager
  | [], sm => sm
  | table :: rest, sm =>
    match sm.IndexDocument IndexTypeDatabase table.name
        (SearchDoc.database (FromTable table)) with
    | .error _ => databaseIndexLoop rest sm
    | .ok sm => databaseIndexLoop rest sm

/-- The ERD probe of `DatabaseHandler.Load`: the first existing file among
`erd.png`, `erd.jpg`, `erd.svg`, `erd.pdf`. -/
def erdPath (path : GoStr) (dir : DatabaseDir) : GoStr :=
  if dir.erdPng then filepathJoin path (str "erd.png")
  else if dir.erdJpg then filepathJoin path (str "erd.jpg")
  else if dir.erdSvg then filepathJoin path (str "erd.svg")
  else if dir.erdPdf then filepathJoin path (str "erd.pdf")
  else []

/-- The connection-type sniffing of `DatabaseHandler.Load`. -/
def connectionType (content : GoStr) : GoStr :=
  let connStr := goToLower content
  if goContains connStr (str "mysql") then str "mysql"
  else if goContains connStr (str "postgres") || goContains connStr (str "postgresql") then
    str "postgresql"
  else if goContains connStr (str "sqlite") then str "sqlite"
  else if goContains connStr (str "mongodb") then str "mongodb"
  else []

/-- `DatabaseHandler.Load`: rebuild the database index, parse `schema.sql`
when present (indexing each table best-effort), record the ERD path, and sniff
the connection info; `now` is the `time.Now()` stamped on the info record. -/
def DatabaseHandler.Load (dh : DatabaseHandler) (sm : SearchManager)
    (dir : DatabaseDir) (now : GoTime) : LoadOutcome DatabaseHandler :=
  match sm.ReindexAll IndexTypeDatabase with
  | .error e => ⟨dh, sm, some (str "failed to reindex database: " ++ e)⟩
  | .ok sm =>
    let info0 : DatabaseInfo :=
      { type := [], schemaPath := [], erdPath := [], connectionInfo := []
        tables := [], updatedAt := now }
    let schemaStep : DatabaseInfo × SearchManager :=
      match dir.schema with
      | none => (info0, sm)
      | some content =>
        let tables := parseSchema content
        ({ info0 with schemaPath := filepathJoin dh.path (str "schema.sql")
                      tables := tables },
         databaseIndexLoop tables sm)
    let info1 := { schemaStep.1 with erdPath := erdPath dh.path dir }
    let info2 :=
      match dir.connection with
      | none => info1
      | some content =>
        { info1 with connectionInfo := content, type := connectionType content }
    ⟨{ dh with dbInfo := some info2 }, schemaStep.2, none⟩

/-!  ### History (src/internal/handlers/history.go)  -/

instance exceptDecEq {ε α : Type} [DecidableEq ε] [DecidableEq α] :
    DecidableEq (Except ε α) := fun a b =>
  match a, b with
  | .error x, .error y =>
    if h : x = y then .isTrue (congrArg Except.error h)
    else .isFalse (fun hc => h (Except.error.inj hc))
  | .ok x, .ok y =>
    if h : x = y then .isTrue (congrArg Except.ok h)
    else .isFalse (fun hc => h (Except.ok.inj hc))
  | .error _, .ok _ => .isFalse (fun hc => Except.noConfusion hc)
  | .ok _, .error _ => .isFalse (fun hc => Except.noConfusion hc)

/-- A history directory entry; `decoded` is the result of the external
`encoding/json` unmarshal of the file's bytes into a `HistoryEntry`. -/
structure HistoryFile where
  name : GoStr
  isDir : Bool
  decoded : Except GoStr HistoryEntry
deriving DecidableEq

structure HistoryHandler where
  path : GoStr
  entries : List HistoryEntry
deriving DecidableEq

/-- Newest-first comparison on history entries (`Timestamp.After` used as the
sort's less function). -/
def historyGE (a b : HistoryEntry) : Prop := b.timestamp ≤ a.timestamp

instance : DecidableRel historyGE := fun a b => Int.decLe b.timestamp a.timestamp

instance : IsTotal HistoryEntry historyGE :=
  ⟨fun a b => le_total b.timestamp a.timestamp⟩

instance : IsTrans HistoryEntry historyGE :=
  ⟨fun _ _ _ hab hbc => le_trans hbc hab⟩

/-- The per-file loop of `HistoryHandler.Load`: each `.json` file must decode,
and each decoded entry must index; the first failure aborts with the partial
collection in place. -/
def historyLoadLoop : List HistoryFile → List HistoryEntry → SearchManager →
    List HistoryEntry × SearchManager × Option GoStr
  | [], acc, sm => (acc, sm, none)
  | file :: rest, acc, sm =>
    if !file.isDir && goEndsWith file.name (str ".json") then
      match file.decoded with
      | .error e =>
        (acc, sm, some (str "failed to load history " ++ file.name ++ str ": " ++ e))
      | .ok entry =>
        let acc := acc ++ [entry]
        match sm.IndexDocument IndexTypeHistory entry.id
            (SearchDoc.history (FromHistoryEntry entry)) with
        | .error e =>
          (acc, sm, some (str "failed to index history " ++ entry.id ++ str ": " ++ e))
        | .ok sm => historyLoadLoop rest acc sm
    else historyLoadLoop rest acc sm

/-- `HistoryHandler.Load`: clear, rebuild the index, load every `.json` file,
then sort the collection newest-first (`sort.Slice` with `Timestamp.After`,
modelled as a comparison sort for that ordering). -/
def HistoryHandler.Load (hh : HistoryHandler) (sm : SearchManager)
    (dir : Option (List HistoryFile)) : LoadOutcome HistoryHandler :=
  let hh := { hh with entries := [] }
  match sm.ReindexAll IndexTypeHistory with
  | .error e => ⟨hh, sm, some (str "failed to reindex history: " ++ e)⟩
  | .ok sm =>
    match dir with
    | none => ⟨hh, sm, none⟩
    | some files =>
      let result := historyLoadLoop files [] sm
      match result.2.2 with
      | some e => ⟨{ hh with entries := result.1 }, result.2.1, some e⟩
      | none =>
        ⟨{ hh with entries := result.1.insertionSort historyGE }, result.2.1, none⟩

/-- `HistoryHandler.AddEntry` (the id input string and timestamps come from
the clock; the persisted JSON bytes come from `encoding/json`, modelled as an
opaque deterministic rendering irrelevant to the claims). -/
def HistoryHandler.AddEntry (hh : HistoryHandler) (sm : SearchManager)
    (feature description reasoning : GoStr) (changes : List Change)
    (now : GoTime) (nowNano : Int) : LoadOutcome HistoryHandler :=
  let entry : HistoryEntry :=
    { id := md5Hex (feature ++ str "-" ++ (Int.repr nowNano).data)
      feature := feature, description := description, reasoning := reasoning
      changes := changes, timestamp := now, filePath := [] }
  let hh := { hh with entries := entry :: hh.entries }
  match sm.IndexDocument IndexTypeHistory entry.id
      (SearchDoc.history (FromHistoryEntry entry)) with
  | .error e =>
    ⟨hh, sm, some (str "failed to index history " ++ entry.id ++ str ": " ++ e)⟩
  | .ok sm => ⟨hh, sm, none⟩

/-!  ### Todos (`TodoHandler`)  -/

structure TodoHandler where
  path : GoStr
  todos : List Todo
deriving DecidableEq

/-- The line loop of `loadTodoFile`: headings update the feature name, and
checkbox lines become todos whose id digests the file path, the task text and
the line index. -/
def todoLineLoop (filePath : GoStr) (now : GoTime) :
    List GoStr → Nat → GoStr → List Todo
  | [], _, _ => []
  | line :: rest, i, feature =>
    let feature :=
      if goStartsWith line (str "# Feature: ") then goTrimStart line (str "# Feature: ")
      else if goStartsWith line (str "# ") then goTrimStart line (str "# ")
      else feature
    let todosHere :=
      if goStartsWith line (str "- [ ]") || goStartsWith line (str "- [x]") then
        let task := goTrimSpace
          (goTrimStart (goTrimStart line (str "- [ ]")) (str "- [x]"))
        if !task.isEmpty then
          [{ id := md5Hex (filePath ++ str "-" ++ task ++ str "-" ++ natRepr i)
             task := task
             feature := feature
             completed := goStartsWith line (str "- [x]")
             filePath := filePath
             lineNumber := 0
             updatedAt := now : Todo }]
        else []
      else []
    todosHere ++ todoLineLoop filePath now rest (i + 1) feature

/-- `TodoHandler.loadTodoFile`: the default feature is the file's base name
without `.md`; `now` is the `time.Now()` stamped on every parsed todo. -/
def loadTodoFile (filePath content : GoStr) (now : GoTime) : List Todo :=
  let feature := goTrimEnd (filepathBase filePath) (str ".md")
  todoLineLoop filePath now (goLines content) 0 feature

/-- The walk body of `TodoHandler.Load`: parse each `.md` file and index every
parsed todo, aborting on the first indexing error. -/
def todosIndexLoop : List Todo → List Todo → SearchManager →
    List Todo × SearchManager × Option GoStr
  | [], acc, sm => (acc, sm, none)
  | todo :: rest, acc, sm =>
    let acc := acc ++ [todo]
    match sm.IndexDocument IndexTypeTodos todo.id (SearchDoc.todo (FromTodo todo)) with
    | .error e =>
      (acc, sm, some (str "failed to index todo " ++ todo.id ++ str ": " ++ e))
    | .ok sm => todosIndexLoop rest acc sm

def todosLoadLoop (now : GoTime) : List WalkEntry → List Todo → SearchManager →
    List Todo × SearchManager × Option GoStr
  | [], acc, sm => (acc, sm, none)
  | entry :: rest, acc, sm =>
    if !entry.isDir && goEndsWith entry.name (str ".md") then
      let parsed := loadTodoFile entry.path entry.content now
      match todosIndexLoop parsed acc sm with
      | (acc, sm, none) => todosLoadLoop now rest acc sm
      | (acc, sm, some e) => (acc, sm, some e)
    else todosLoadLoop now rest acc sm

/-- `TodoHandler.Load`. -/
def TodoHandler.Load (th : TodoHandler) (sm : SearchManager)
    (dir : Option (List WalkEntry)) (now : GoTime) : LoadOutcome TodoHandler :=
  let th := { th with todos := [] }
  match sm.ReindexAll IndexTypeTodos with
  | .error e => ⟨th, sm, some (str "failed to reindex todos: " ++ e)⟩
  | .ok sm =>
    match dir with
    | none => ⟨th, sm, none⟩
    | some entries =>
      let result := todosLoadLoop now entries [] sm
      ⟨{ th with todos := result.1 }, result.2.1, result.2.2⟩

/-- The file system as the todo mutation touches it: path to content. -/
abbrev Fs := List (GoStr × GoStr)

/-- The line rewrite of `updateTodoFile`: toggle the checkbox on the first
line whose text contains the todo's task string, leaving every other line —
including a later line that actually is the todo's own — unchanged. -/
def toggleFirstMatch (task : GoStr) (completed : Bool) : List GoStr → List GoStr
  | [] => []
  | line :: rest =>
    if goContains line task then
      (if completed then goReplaceOnce line (str "- [ ]") (str "- [x]")
       else goReplaceOnce line (str "- [x]") (str "- [ ]")) :: rest
    else line :: toggleFirstMatch task completed rest

/-- `TodoHandler.updateTodoFile`: read the todo's file, rewrite the first line
containing the task text, and write the file back. -/
def updateTodoFile (fs : Fs) (todo : Todo) : Except GoStr Fs :=
  match lookupA todo.filePath fs with
  | none => .error (str "open " ++ todo.filePath ++ str ": no such file")
  | some content =>
    let newContent := goJoinLines (toggleFirstMatch todo.task todo.completed
      (goLines content))
    .ok (insertA todo.filePath newContent fs)

/-- The outcome of a todo mutation: handler, file system, search manager, and
the returned error if any. -/
structure MutationOutcome where
  state : TodoHandler
  fs : Fs
  sm : SearchManager
  err : Option GoStr
deriving DecidableEq

/-- The search loop of `UpdateTodoStatus` over the collection: the prefix
already scanned is passed along so the mutated collection can be rebuilt. -/
def updateTodoLoop (th : TodoHandler) (fs : Fs) (sm : SearchManager)
    (todoID : GoStr) (completed : Bool) (now : GoTime) :
    List Todo → List Todo → MutationOutcome
  | [], _ =>
    ⟨th, fs, sm, some (str "todo with ID " ++ todoID ++ str " not found")⟩
  | todo :: rest, seen =>
    if todo.id = todoID then
      let todo := { todo with completed := completed, updatedAt := now }
      let th := { th with todos := seen ++ todo :: rest }
      match updateTodoFile fs todo with
      | .error e => ⟨th, fs, sm, some e⟩
      | .ok fs =>
        match sm.UpdateDocument IndexTypeTodos todoID (SearchDoc.todo (FromTodo todo)) with
        | .error e =>
          ⟨th, fs, sm, some (str "failed to update todo in index: " ++ e)⟩
        | .ok sm => ⟨th, fs, sm, none⟩
    else updateTodoLoop th fs sm todoID completed now rest (seen ++ [todo])

/-- `TodoHandler.UpdateTodoStatus`: locate the todo by id; when found, flip the
in-memory record, rewrite its file, and update its index entry; when not
found, report the error and change nothing. -/
def TodoHandler.UpdateTodoStatus (th : TodoHandler) (fs : Fs) (sm : SearchManager)
    (todoID : GoStr) (completed : Bool) (now : GoTime) : MutationOutcome :=
  updateTodoLoop th fs sm todoID completed now th.todos []

/-!  ### Backups (`BackupHandler`)  -/

/-- The backups directory as `BackupHandler.Load` probes it: the decode result
of `metadata.json` when that file exists (`encoding/json`, external). -/
structure BackupsDir where
  metadata : Option (Except GoStr (List Backup))
deriving DecidableEq

structure BackupHandler where
  path : GoStr
  backups : List Backup
deriving DecidableEq

/-- The per-backup indexing loop of `BackupHandler.Load`: indexing errors are
printed and skipped, never returned. -/
def backupsIndexLoop : List Backup → SearchManager → SearchManager
  | [], sm => sm
  | backup :: rest, sm =>
    match sm.IndexDocument IndexTypeBackups backup.id
        (SearchDoc.backup (FromBackup backup)) with
    | .error _ => backupsIndexLoop rest sm
    | .ok sm => backupsIndexLoop rest sm

/-- `BackupHandler.Load`: clear, rebuild the backups index, decode
`metadata.json` when present — its record order is kept as decoded, no sort —
and index each record best-effort. -/
def BackupHandler.Load (bh : BackupHandler) (sm : SearchManager)
    (dir : BackupsDir) : LoadOutcome BackupHandler :=
  let bh := { bh with backups := [] }
  match sm.ReindexAll IndexTypeBackups with
  | .error e => ⟨bh, sm, some (str "failed to reindex backups: " ++ e)⟩
  | .ok sm =>
    match dir.metadata with
    | none => ⟨bh, sm, none⟩
    | some (.error e) => ⟨bh, sm, some e⟩
    | some (.ok records) =>
      ⟨{ bh with backups := records }, backupsIndexLoop records sm, none⟩

/-- The `time.Format "20060102_150405"` rendering (Go `time`, external),
modelled as an opaque deterministic rendering of the instant. -/
def timeFormatCompact (t : GoTime) : GoStr := (Int.repr t).data

/-- The `encoding/json` marshalling of the metadata records (external),
modelled as an opaque deterministic rendering. -/
def jsonEncodeBackups (backups : List Backup) : GoStr :=
  List.intercalate (str ",") (backups.map (·.id))

/-- `BackupHandler.CreateBackup`: stat the original file, copy it under a
fresh id-derived path, append the record to the collection (at the end), save
the metadata file, and index the record best-effort. -/
def BackupHandler.CreateBackup (bh : BackupHandler) (fs : Fs) (sm : SearchManager)
    (originalPath contextStr reasoning : GoStr) (now : GoTime) (nowNano : Int) :
    Option Backup × BackupHandler × Fs × SearchManager × Option GoStr :=
  match lookupA originalPath fs with
  | none => (none, bh, fs, sm, some (str "file not found"))
  | some content =>
    let id := md5Hex (originalPath ++ str "-" ++ (Int.repr nowNano).data)
    let ext := filepathExt originalPath
    let backupFileName :=
      goTrimEnd (filepathBase originalPath) ext ++ str "_"
        ++ timeFormatCompact now ++ ext
    let backupPath := filepathJoin (filepathJoin bh.path id) backupFileName
    let fs := insertA backupPath content fs
    let backup : Backup :=
      { id := id, originalPath := originalPath, backupPath := backupPath
        timestamp := now, changeContext := contextStr, reasoning := reasoning
        fileSize := content.length }
    let bh := { bh with backups := bh.backups ++ [backup] }
    let fs := insertA (filepathJoin bh.path (str "metadata.json"))
      (jsonEncodeBackups bh.backups) fs
    let sm :=
      match sm.IndexDocument IndexTypeBackups backup.id
          (SearchDoc.backup (FromBackup backup)) with
      | .error _ => sm
      | .ok sm => sm
    (some backup, bh, fs, sm, none)

/-!  ### Reload coordinator (src/internal/handlers/buddy_handlers.go)  -/

/-- `handlers.BuddyHandlers`: the six domain stores. -/
structure BuddyHandlers where
  rulesHandler : RulesHandler
  knowledgeHandler : KnowledgeHandler
  databaseHandler : DatabaseHandler
  todoHandler : TodoHandler
  historyHandler : HistoryHandler
  backupHandler : BackupHandler
deriving DecidableEq

/-- The on-disk state each of the six loads reads. -/
structure BuddyDirs where
  rulesDir : Option (List GoFile)
  knowledgeDir : Option (List WalkEntry)
  databaseDir : DatabaseDir
  todosDir : Option (List WalkEntry)
  historyDir : Option (List HistoryFile)
  backupsDir : BackupsDir
deriving DecidableEq

/-- `BuddyHandlers.loadAllData`: call the six domain loads in the fixed order
rules → knowledge → database → todos → history → backups; the first error
aborts the rest and is returned wrapped with its domain name. -/
def BuddyHandlers.loadAllData (bh : BuddyHandlers) (sm : SearchManager)
    (dirs : BuddyDirs) (now : GoTime) :
    BuddyHandlers × SearchManager × Option GoStr :=
  let r := bh.rulesHandler.Load sm dirs.rulesDir
  let bh := { bh with rulesHandler := r.state }
  match r.err with
  | some e => (bh, r.sm, some (str "failed to load rules: " ++ e))
  | none =>
    let k := bh.knowledgeHandler.Load r.sm dirs.knowledgeDir
    let bh := { bh with knowledgeHandler := k.state }
    match k.err with
    | some e => (bh, k.sm, some (str "failed to load knowledge: " ++ e))
    | none =>
      let d := bh.databaseHandler.Load k.sm dirs.databaseDir now
      let bh := { bh with databaseHandler := d.state }
      match d.err with
      | some e => (bh, d.sm, some (str "failed to load database: " ++ e))
      | none =>
        let t := bh.todoHandler.Load d.sm dirs.todosDir now
        let bh := { bh with todoHandler := t.state }
        match t.err with
        | some e => (bh, t.sm, some (str "failed to load todos: " ++ e))
        | none =>
          let h := bh.historyHandler.Load t.sm dirs.historyDir
          let bh := { bh with historyHandler := h.state }
          match h.err with
          | some e => (bh, h.sm, some (str "failed to load history: " ++ e))
          | none =>
            let b := bh.backupHandler.Load h.sm dirs.backupsDir
            let bh := { bh with backupHandler := b.state }
            match b.err with
            | some e => (bh, b.sm, some (str "failed to load backups: " ++ e))
            | none => (bh, b.sm, none)

/-- `BuddyHandlers.ReloadData` — the reload callback handed to the watcher. -/
def BuddyHandlers.ReloadData (bh : BuddyHandlers) (sm : SearchManager)
    (dirs : BuddyDirs) (now : GoTime) :
    BuddyHandlers × SearchManager × Option GoStr :=
  bh.loadAllData sm dirs now

/-!  ## Concrete data used by the counterexamples and witnesses  -/

/-- A schema file with two `CREATE TABLE` statements — written across several
lines, as SQL conventionally is and as the repository's own sample
`.buddy/database/schema.sql` and README example are — plus one `CREATE INDEX`
on the first table. -/
def schemaTwoTablesMultiline : GoStr := str
  "CREATE TABLE users (\n  id INTEGER PRIMARY KEY,\n  email VARCHAR(255) NOT NULL\n);\n\nCREATE TABLE orders (\n  id INTEGER\n);\n\nCREATE INDEX idx_users_email ON users(email);\n"

/-- The same two tables and index with each statement on a single line. -/
def schemaTwoTablesSingleline : GoStr := str
  "CREATE TABLE users (id INTEGER, email VARCHAR(255) NOT NULL);\nCREATE TABLE orders (id INTEGER);\nCREATE INDEX idx_users_email ON users(email);\n"

/-- A pre-load history record, used to exhibit the pre-load collection. -/
def historyPreEntry : HistoryEntry := ⟨str "e0", 0, str "auth", [], [], [], []⟩

/-- A history directory whose single candidate file fails to decode. -/
def historyBadDir : List HistoryFile :=
  [⟨str "bad.json", false, .error (str "unexpected end of JSON input")⟩]

/-- One well-formed rule file. -/
def ruleFileA : GoFile := ⟨str "a.md", str "# T\n\nbody", 3, false⟩

/-- A search manager whose engine faults on the id that `a.md` parses to. -/
def faultyRulesSM : SearchManager :=
  ⟨[], [(IndexTypeRules, [md5Hex (str "/b/rules/a.md")])]⟩

/-- One todo file as the walk visits it. -/
def todoWalkA : WalkEntry := ⟨str "/b/todos/a.md", str "a.md", str "- [ ] fix bug", false⟩

def backupOld : Backup := ⟨str "b0", str "/f", str "/bk/b0/f", 0, [], [], 1⟩

def backupNew : Backup := ⟨str "b1", str "/f", str "/bk/b1/f", 5, [], [], 1⟩

/-- A coordinator over six empty stores. -/
def buddyEmpty : BuddyHandlers :=
  ⟨⟨str "/b/rules", []⟩, ⟨str "/b/knowledge", []⟩, ⟨str "/b/database", none⟩,
   ⟨str "/b/todos", []⟩, ⟨str "/b/history", []⟩, ⟨str "/b/backups", []⟩⟩

/-- Directories in which every domain has nothing to load. -/
def dirsEmpty : BuddyDirs :=
  ⟨none, none, ⟨none, false, false, false, false, none⟩, none, none, ⟨none⟩⟩

/-- The history records decoded before the first failing candidate file — the
collection a failed history load leaves behind (the claim-side description of
the partial state). -/
def decodedBeforeFailure : List HistoryFile → List HistoryEntry
  | [] => []
  | file :: rest =>
    if !file.isDir && goEndsWith file.name (str ".json") then
      match file.decoded with
      | .error _ => []
      | .ok entry => entry :: decodedBeforeFailure rest
    else decodedBeforeFailure rest

/-- `updatedAt` erased: the todo as it depends on the file alone, not on the
load-time clock. -/
def stripTodoClock (todo : Todo) : Todo := { todo with updatedAt := 0 }

/-- `updatedAt` replaced by a given instant. -/
def setTodoClock (t : GoTime) (todo : Todo) : Todo := { todo with updatedAt := t }

/-!  ## Theorems  -/

/-- Claim C4: an event triggers a reload exactly when the file name is not
hidden, carries no backup/swap/temp suffix, has an accepted extension, and the
operation mask includes Create or Write; in particular Remove, Rename and
Chmod-only masks are never relevant. -/
theorem isRelevantEvent_iff (event : FsnotifyEvent) :
    isRelevantEvent event = true ↔ relevantEventSpec event := by
  unfold isRelevantEvent relevantEventSpec
  rcases event with ⟨name, ⟨create, write, remove, rename, chmod⟩⟩
  cases hb : goStartsWith (filepathBase name) (str ".") <;>
    cases h1 : goEndsWith name (str "~") <;>
    cases h2 : goEndsWith name (str ".swp") <;>
    cases h3 : goEndsWith name (str ".tmp") <;>
    cases h4 : goEndsWith name (str ".md") <;>
    cases h5 : goEndsWith name (str ".json") <;>
    cases h6 : goEndsWith name (str ".sql") <;>
    cases create <;> cases write <;>
    simp

/-- Claim C5, counterexample: `ReindexAll` invoked with a domain name that has
no existing index does not fail with a domain-not-found error — it succeeds
and creates a fresh empty index for that name as a side effect. -/
theorem reindexAll_missing_domain_creates_index_cex :
    lookupA (str "nosuch") (SearchManager.mk [] []).indexes = none
    ∧ SearchManager.ReindexAll ⟨[], []⟩ (str "nosuch") =
        .ok ⟨[(str "nosuch", ⟨[]⟩)], []⟩ := by
  constructor
  · rfl
  · rfl

/-- Claim C5 as amended: on a domain name with no existing index, the index,
delete, search, search-with-filters and document-count operations fail with
the domain-not-found error and create nothing, while reindex-all succeeds and
creates a fresh empty index under that name. -/
theorem searchManager_missing_domain_spec (sm : SearchManager)
    (indexType id queryStr : GoStr) (doc : SearchDoc)
    (filters : List (GoStr × GoStr)) (size : Nat)
    (h : lookupA indexType sm.indexes = none) :
    sm.IndexDocument indexType id doc = .error (indexNotFoundMsg indexType)
    ∧ sm.DeleteDocument indexType id = .error (indexNotFoundMsg indexType)
    ∧ sm.Search indexType queryStr size = .error (indexNotFoundMsg indexType)
    ∧ sm.SearchWithFilters indexType queryStr filters size =
        .error (indexNotFoundMsg indexType)
    ∧ sm.GetDocumentCount indexType = .error (indexNotFoundMsg indexType)
    ∧ sm.ReindexAll indexType =
        .ok { sm with indexes := insertA indexType ⟨[]⟩ sm.indexes } := by
  refine ⟨?_, ?_, ?_, ?_, ?_, rfl⟩ <;>
    simp [SearchManager.IndexDocument, SearchManager.DeleteDocument,
      SearchManager.Search, SearchManager.SearchWithFilters,
      SearchManager.GetDocumentCount, h]

/-- Witness for `searchManager_missing_domain_spec` at the empty manager and
the domain name `"todos"`. -/
theorem searchManager_missing_domain_spec_witness :
    SearchManager.IndexDocument ⟨[], []⟩ IndexTypeTodos (str "x")
        (SearchDoc.todo ⟨str "x", [], [], false, str "pending"⟩) =
      .error (indexNotFoundMsg IndexTypeTodos) :=
  (searchManager_missing_domain_spec ⟨[], []⟩ IndexTypeTodos (str "x") []
    (SearchDoc.todo ⟨str "x", [], [], false, str "pending"⟩) [] 10 rfl).1

set_option maxRecDepth 10000 in
/-- Claim C9: the claimed outcome — two table records, one index on the first —
is produced only when each statement sits on a single line; on the
conventional multi-line form (the repository's own sample schema and README
example) the table pattern's lazy body cannot cross a newline, so the load
produces zero table records. -/
theorem parseSchema_multiline_schema_yields_no_tables :
    parseSchema schemaTwoTablesMultiline = []
    ∧ parseSchema schemaTwoTablesSingleline =
      [{ name := str "users", schema := []
         columns := [⟨str "id", str "INTEGER", true, [], []⟩,
                     ⟨str "email", str "VARCHAR(255)", false, [], []⟩]
         indexes := [⟨str "idx_users_email", [str "email"], false⟩]
         description := [] },
       { name := str "orders", schema := []
         columns := [⟨str "id", str "INTEGER", true, [], []⟩]
         indexes := []
         description := [] }] := by
  constructor
  · decide
  · decide

/-- Claim C10: `updateTodoFile` rewrites the first line whose text contains
the todo's task string.  Here the target todo is the second line (`- [ ] fix
bug`), but the first line (`- [ ] fix bug please`) also contains the task text
`fix bug`, so the rewrite checks the first line and leaves the target todo's
own line unchanged. -/
theorem updateTodoFile_toggles_first_matching_line :
    updateTodoFile
        [(str "/b/todos/a.md", str "- [ ] fix bug please\n- [ ] fix bug")]
        { id := str "t1", task := str "fix bug", feature := str "a"
          completed := true, filePath := str "/b/todos/a.md"
          lineNumber := 0, updatedAt := 0 } =
      .ok [(str "/b/todos/a.md", str "- [x] fix bug please\n- [ ] fix bug")] := by
  decide

theorem lookupA_insertA_self {β : Type} (k : GoStr) (v : β)
    (l : List (GoStr × β)) : lookupA k (insertA k v l) = some v := by
  induction l with
  | nil => simp [insertA, lookupA]
  | cons head tail ih =>
    obtain ⟨k', v'⟩ := head
    by_cases h : k' = k
    · simp [insertA, lookupA, h]
    · simp [insertA, lookupA, h, ih]

theorem historyLoadLoop_abortState (files : List HistoryFile) :
    ∀ (acc : List HistoryEntry) (sm : SearchManager),
      (lookupA IndexTypeHistory sm.indexes).isSome = true →
      (lookupA IndexTypeHistory sm.faults).getD [] = [] →
      (historyLoadLoop files acc sm).2.2.isSome = true →
      (historyLoadLoop files acc sm).1 = acc ++ decodedBeforeFailure files := by
  induction files with
  | nil =>
    intro acc sm _ _ herr
    simp [historyLoadLoop] at herr
  | cons file rest ih =>
    intro acc sm hidx hfaults herr
    by_cases hc : (!file.isDir && goEndsWith file.name (str ".json")) = true
    · rcases hd : file.decoded with e | entry
      · simp [historyLoadLoop, hc, hd, decodedBeforeFailure]
      · obtain ⟨idx, hfound⟩ := Option.isSome_iff_exists.mp hidx
        simp only [historyLoadLoop, hc, hd, SearchManager.IndexDocument, hfound,
          hfaults, List.not_mem_nil, if_true, if_false, ite_false] at herr ⊢
        rw [ih (acc ++ [entry])
          (SearchManager.mk
            (insertA IndexTypeHistory
              (BleveIndex.mk
                (insertA entry.id (SearchDoc.history (FromHistoryEntry entry)) idx.docs))
              sm.indexes)
            sm.faults)
          (by simp [lookupA_insertA_self]) hfaults herr]
        simp [decodedBeforeFailure, hc, hd]
    · rw [historyLoadLoop, if_neg hc] at herr ⊢
      rw [ih acc sm hidx hfaults herr]
      simp [decodedBeforeFailure, hc]

/-- Claim C1 as amended: when a history load hits a decode (parse) error the
load aborts and returns the error, but the store is *not* left in its pre-load
state — the collection was cleared when the load began, so a read after the
failed load returns exactly the records decoded before the failing file
(independent of whatever the store held before), not the pre-load record
set. -/
theorem historyLoad_parse_error_leaves_cleared_state (hh : HistoryHandler)
    (sm : SearchManager) (files : List HistoryFile)
    (hfaults : (lookupA IndexTypeHistory sm.faults).getD [] = [])
    (herr : (hh.Load sm (some files)).err.isSome = true) :
    (hh.Load sm (some files)).state.entries = decodedBeforeFailure files := by
  simp only [HistoryHandler.Load, SearchManager.ReindexAll] at herr ⊢
  rcases he : (historyLoadLoop files []
      { sm with indexes := insertA IndexTypeHistory ⟨[]⟩ sm.indexes }).2.2 with _ | e
  · simp only [he] at herr
    simp at herr
  · simp only [he]
    have := historyLoadLoop_abortState files []
      { sm with indexes := insertA IndexTypeHistory ⟨[]⟩ sm.indexes }
      (by simp [lookupA_insertA_self]) hfaults (by simp [he])
    simpa using this

/-- Witness for `historyLoad_parse_error_leaves_cleared_state`: one good file
then one undecodable file; the failed load leaves exactly the one decoded
record. -/
theorem historyLoad_parse_error_leaves_cleared_state_witness :
    ((HistoryHandler.mk (str "/b/history") [historyPreEntry]).Load ⟨[], []⟩
        (some [⟨str "good.json", false, .ok ⟨str "e1", 7, str "x", [], [], [], []⟩⟩,
               ⟨str "bad.json", false, .error (str "bad json")⟩])).state.entries =
      decodedBeforeFailure
        [⟨str "good.json", false, .ok ⟨str "e1", 7, str "x", [], [], [], []⟩⟩,
         ⟨str "bad.json", false, .error (str "bad json")⟩] :=
  historyLoad_parse_error_leaves_cleared_state
    (HistoryHandler.mk (str "/b/history") [historyPreEntry]) ⟨[], []⟩
    [⟨str "good.json", false, .ok ⟨str "e1", 7, str "x", [], [], [], []⟩⟩,
     ⟨str "bad.json", false, .error (str "bad json")⟩]
    (by decide) (by decide)

/-- Claim C8 as amended: after a completed load the history collection is
ordered newest-first by timestamp (the load sorts it), but the backups
collection is not sorted: its load preserves the metadata file's record order
as decoded, and creating a backup appends the new — newest — record at the
end of the collection. -/
theorem historyLoad_sorted_backups_keep_file_order :
    (∀ (hh : HistoryHandler) (sm : SearchManager) (dir : Option (List HistoryFile)),
      (hh.Load sm dir).err = none →
      List.Sorted historyGE (hh.Load sm dir).state.entries)
    ∧ (∀ (bh : BackupHandler) (sm : SearchManager) (records : List Backup),
      (BackupHandler.Load bh sm ⟨some (.ok records)⟩).state.backups = records)
    ∧ (∀ (bh : BackupHandler) (fs : Fs) (sm : SearchManager)
        (originalPath ctx rsn content : GoStr) (now : GoTime) (nano : Int),
      lookupA originalPath fs = some content →
      ∃ b : Backup,
        (bh.CreateBackup fs sm originalPath ctx rsn now nano).1 = some b
        ∧ (bh.CreateBackup fs sm originalPath ctx rsn now nano).2.1.backups =
            bh.backups ++ [b]
        ∧ b.timestamp = now) := by
  refine ⟨?_, ?_, ?_⟩
  · intro hh sm dir herr
    cases dir with
    | none =>
      simp [HistoryHandler.Load, SearchManager.ReindexAll]
    | some files =>
      simp only [HistoryHandler.Load, SearchManager.ReindexAll] at herr ⊢
      rcases he : (historyLoadLoop files []
          { sm with indexes := insertA IndexTypeHistory ⟨[]⟩ sm.indexes }).2.2 with _ | e
      · simp only [he]
        exact List.sorted_insertionSort historyGE _
      · simp only [he] at herr
        simp at herr
  · intro bh sm records
    rfl
  · intro bh fs sm originalPath ctx rsn content now nano h
    simp only [BackupHandler.CreateBackup, h]
    exact ⟨_, rfl, rfl, rfl⟩

/-- Witness for `historyLoad_sorted_backups_keep_file_order`: a successful
load of two history files whose timestamps arrive oldest-first yields a
collection sorted newest-first. -/
theorem historyLoad_sorted_backups_keep_file_order_witness :
    List.Sorted historyGE
      ((HistoryHandler.mk (str "/b/history") []).Load ⟨[], []⟩
        (some [⟨str "a.json", false, .ok ⟨str "a", 1, str "x", [], [], [], []⟩⟩,
               ⟨str "b.json", false, .ok ⟨str "b", 5, str "y", [], [], [], []⟩⟩])).state.entries :=
  historyLoad_sorted_backups_keep_file_order.1
    (HistoryHandler.mk (str "/b/history") []) ⟨[], []⟩
    (some [⟨str "a.json", false, .ok ⟨str "a", 1, str "x", [], [], [], []⟩⟩,
           ⟨str "b.json", false, .ok ⟨str "b", 5, str "y", [], [], [], []⟩⟩])
    (by decide)

/-- Claim C6 as amended: only the database and backups loads treat a
per-record indexing error as best-effort — for every search-manager state,
fault sets included, those two loads complete without error and their
collections contain all parsed records; the rules, knowledge, todos and
history loads instead abort on an indexing error (see the counterexample). -/
theorem database_backups_indexing_best_effort :
    (∀ (dh : DatabaseHandler) (sm : SearchManager) (dir : DatabaseDir) (now : GoTime),
      (dh.Load sm dir now).err = none
      ∧ (dh.Load sm dir now).state.dbInfo.map (fun info => info.tables) =
          some ((dir.schema.map parseSchema).getD []))
    ∧ (∀ (bh : BackupHandler) (sm : SearchManager) (records : List Backup),
      (BackupHandler.Load bh sm ⟨some (.ok records)⟩).err = none
      ∧ (BackupHandler.Load bh sm ⟨some (.ok records)⟩).state.backups = records) := by
  constructor
  · intro dh sm dir now
    rcases dir with ⟨schema, p1, p2, p3, p4, conn⟩
    constructor
    · cases schema <;> cases conn <;> rfl
    · cases schema <;> cases conn <;> rfl
  · intro bh sm records
    exact ⟨rfl, rfl⟩

theorem todoLineLoop_clock (filePath : GoStr) (t : GoTime) :
    ∀ (lines : List GoStr) (i : Nat) (feature : GoStr),
      todoLineLoop filePath t lines i feature =
        (todoLineLoop filePath 0 lines i feature).map (setTodoClock t) := by
  intro lines
  induction lines with
  | nil => intro i feature; rfl
  | cons line rest ih =>
    intro i feature
    simp only [todoLineLoop]
    rw [ih]
    rw [List.map_append]
    congr 1
    by_cases hcb : (goStartsWith line (str "- [ ]") || goStartsWith line (str "- [x]")) = true
    · simp only [hcb, if_true]
      by_cases hts : (goTrimSpace (goTrimStart (goTrimStart line (str "- [ ]"))
          (str "- [x]"))).isEmpty
      · simp [hts, setTodoClock]
      · simp [hts, setTodoClock]
    · simp [hcb]

theorem loadTodoFile_clock (filePath content : GoStr) (t : GoTime) :
    loadTodoFile filePath content t =
      (loadTodoFile filePath content 0).map (setTodoClock t) := by
  unfold loadTodoFile
  exact todoLineLoop_clock filePath t (goLines content) 0 _

theorem todosIndexLoop_clock (t : GoTime) :
    ∀ (parsed acc : List Todo) (sm : SearchManager),
      todosIndexLoop (parsed.map (setTodoClock t)) (acc.map (setTodoClock t)) sm =
        ((todosIndexLoop parsed acc sm).1.map (setTodoClock t),
         (todosIndexLoop parsed acc sm).2) := by
  intro parsed
  induction parsed with
  | nil => intro acc sm; rfl
  | cons todo rest ih =>
    intro acc sm
    simp only [List.map_cons, todosIndexLoop]
    have hdoc : sm.IndexDocument IndexTypeTodos (setTodoClock t todo).id
        (SearchDoc.todo (FromTodo (setTodoClock t todo))) =
        sm.IndexDocument IndexTypeTodos todo.id (SearchDoc.todo (FromTodo todo)) := rfl
    rw [hdoc]
    cases hstep : sm.IndexDocument IndexTypeTodos todo.id
        (SearchDoc.todo (FromTodo todo)) with
    | error e => simp [setTodoClock]
    | ok sm2 =>
      have hacc : acc.map (setTodoClock t) ++ [setTodoClock t todo] =
          (acc ++ [todo]).map (setTodoClock t) := by simp
      rw [hacc]
      exact ih (acc ++ [todo]) sm2

theorem todosLoadLoop_clock (t : GoTime) :
    ∀ (entries : List WalkEntry) (acc : List Todo) (sm : SearchManager),
      todosLoadLoop t entries (acc.map (setTodoClock t)) sm =
        ((todosLoadLoop 0 entries acc sm).1.map (setTodoClock t),
         (todosLoadLoop 0 entries acc sm).2) := by
  intro entries
  induction entries with
  | nil => intro acc sm; rfl
  | cons entry rest ih =>
    intro acc sm
    by_cases hmd : (!entry.isDir && goEndsWith entry.name (str ".md")) = true
    · simp only [todosLoadLoop, hmd, if_true]
      rw [loadTodoFile_clock entry.path entry.content t]
      rw [todosIndexLoop_clock t (loadTodoFile entry.path entry.content 0) acc sm]
      rcases hstep : todosIndexLoop (loadTodoFile entry.path entry.content 0) acc sm
        with ⟨acc2, sm2, err2⟩
      cases err2 with
      | none => exact ih acc2 sm2
      | some e => rfl
    · simp only [todosLoadLoop, hmd, if_false, Bool.false_eq_true]
      exact ih acc sm

theorem todosLoad_clock (th : TodoHandler) (sm : SearchManager)
    (dir : Option (List WalkEntry)) (t : GoTime) :
    (th.Load sm dir t).state.todos =
      ((th.Load sm dir 0).state.todos).map (setTodoClock t)
    ∧ (th.Load sm dir t).sm = (th.Load sm dir 0).sm
    ∧ (th.Load sm dir t).err = (th.Load sm dir 0).err := by
  cases dir with
  | none => exact ⟨rfl, rfl, rfl⟩
  | some entries =>
    simp only [TodoHandler.Load, SearchManager.ReindexAll]
    have h := todosLoadLoop_clock t entries []
      { sm with indexes := insertA IndexTypeTodos ⟨[]⟩ sm.indexes }
    simp only [List.map_nil] at h
    rw [h]
    exact ⟨rfl, rfl, rfl⟩

/-- Claim C7 as amended: reloading the todos domain twice with unchanged files
yields record sets identical in every carried field *except* the record's
`UpdatedAt`, which is stamped with the load-time clock rather than derived
from the file; in particular the identifiers, all content-derived fields, the
search-manager state and the returned error coincide across the two loads,
and a rule record's identifier is exactly the digest of its source file
path. -/
theorem todosLoad_reload_identical_up_to_clock (th : TodoHandler)
    (sm : SearchManager) (dir : Option (List WalkEntry)) (t1 t2 : GoTime) :
    ((th.Load sm dir t1).state.todos).map stripTodoClock =
      ((th.Load sm dir t2).state.todos).map stripTodoClock
    ∧ ((th.Load sm dir t1).state.todos).map (fun todo => todo.id) =
      ((th.Load sm dir t2).state.todos).map (fun todo => todo.id)
    ∧ (th.Load sm dir t1).err = (th.Load sm dir t2).err
    ∧ (th.Load sm dir t1).sm = (th.Load sm dir t2).sm
    ∧ (∀ path content mtime, (loadRuleFile path content mtime).id = md5Hex path) := by
  obtain ⟨hs1, hm1, he1⟩ := todosLoad_clock th sm dir t1
  obtain ⟨hs2, hm2, he2⟩ := todosLoad_clock th sm dir t2
  refine ⟨?_, ?_, ?_, ?_, ?_⟩
  · rw [hs1, hs2, List.map_map, List.map_map]
    rfl
  · rw [hs1, hs2, List.map_map, List.map_map]
    rfl
  · rw [he1, he2]
  · rw [hm1, hm2]
  · intro path content mtime
    rfl

theorem updateTodoLoop_not_found (th : TodoHandler) (fs : Fs) (sm : SearchManager)
    (todoID : GoStr) (b : Bool) (now : GoTime) :
    ∀ (todos seen : List Todo), (∀ u ∈ todos, u.id ≠ todoID) →
      updateTodoLoop th fs sm todoID b now todos seen =
        ⟨th, fs, sm, some (str "todo with ID " ++ todoID ++ str " not found")⟩ := by
  intro todos
  induction todos with
  | nil => intro seen _; rfl
  | cons todo rest ih =>
    intro seen h
    have hne : ¬ todo.id = todoID := h todo (List.mem_cons_self todo rest)
    simp only [updateTodoLoop, hne, if_false]
    exact ih (seen ++ [todo]) (fun u hu => h u (List.mem_cons_of_mem todo hu))

theorem updateTodoLoop_skip (th : TodoHandler) (fs : Fs) (sm : SearchManager)
    (todoID : GoStr) (b : Bool) (now : GoTime) (rest : List Todo) :
    ∀ (pre seen : List Todo), (∀ u ∈ pre, u.id ≠ todoID) →
      updateTodoLoop th fs sm todoID b now (pre ++ rest) seen =
        updateTodoLoop th fs sm todoID b now rest (seen ++ pre) := by
  intro pre
  induction pre with
  | nil => intro seen _; simp
  | cons todo ptail ih =>
    intro seen h
    have hne : ¬ todo.id = todoID := h todo (List.mem_cons_self todo ptail)
    simp only [List.cons_append, updateTodoLoop, hne, if_false]
    have hstep := ih (seen ++ [todo]) (fun u hu => h u (List.mem_cons_of_mem todo hu))
    rw [List.append_assoc] at hstep
    exact hstep

/-- Claim C3: a point mutation on an identifier present in the collection
updates the in-memory record's completion flag (and clock), rewrites its
source file, and updates the single corresponding search-index entry, so a
read-by-id afterwards returns the new value; a mutation on an identifier that
matches no record fails with the not-found error and leaves the collection,
the file system and the index untouched. -/
theorem updateTodoStatus_spec (th : TodoHandler) (fs : Fs) (sm : SearchManager)
    (todoID : GoStr) (b : Bool) (now : GoTime) :
    ((∀ u ∈ th.todos, u.id ≠ todoID) →
      th.UpdateTodoStatus fs sm todoID b now =
        ⟨th, fs, sm, some (str "todo with ID " ++ todoID ++ str " not found")⟩)
    ∧ (∀ (pre post : List Todo) (t : Todo) (content : GoStr) (idx : BleveIndex),
        th.todos = pre ++ t :: post →
        (∀ u ∈ pre, u.id ≠ todoID) →
        t.id = todoID →
        lookupA t.filePath fs = some content →
        lookupA IndexTypeTodos sm.indexes = some idx →
        (lookupA IndexTypeTodos sm.faults).getD [] = [] →
        th.UpdateTodoStatus fs sm todoID b now =
          ⟨⟨th.path, pre ++ { t with completed := b, updatedAt := now } :: post⟩,
            insertA t.filePath
              (goJoinLines (toggleFirstMatch t.task b (goLines content))) fs,
            SearchManager.mk
              (insertA IndexTypeTodos
                (BleveIndex.mk (insertA todoID
                  (SearchDoc.todo (FromTodo { t with completed := b, updatedAt := now }))
                  idx.docs))
                sm.indexes)
              sm.faults,
            none⟩
        ∧ ((th.UpdateTodoStatus fs sm todoID b now).state.todos.find?
              (fun u => decide (u.id = todoID))) =
            some { t with completed := b, updatedAt := now }) := by
  constructor
  · intro h
    exact updateTodoLoop_not_found th fs sm todoID b now th.todos [] h
  · intro pre post t content idx htodos hpre ht hfile hidx hfault
    have hmain : th.UpdateTodoStatus fs sm todoID b now =
        ⟨⟨th.path, pre ++ { t with completed := b, updatedAt := now } :: post⟩,
          insertA t.filePath
            (goJoinLines (toggleFirstMatch t.task b (goLines content))) fs,
          SearchManager.mk
            (insertA IndexTypeTodos
              (BleveIndex.mk (insertA todoID
                (SearchDoc.todo (FromTodo { t with completed := b, updatedAt := now }))
                idx.docs))
              sm.indexes)
            sm.faults,
          none⟩ := by
      unfold TodoHandler.UpdateTodoStatus
      rw [htodos, updateTodoLoop_skip th fs sm todoID b now (t :: post) pre [] hpre]
      simp only [List.nil_append, updateTodoLoop, ht, if_true, updateTodoFile,
        SearchManager.UpdateDocument, SearchManager.IndexDocument]
      simp only [show ({ t with completed := b, updatedAt := now } : Todo).filePath
          = t.filePath from rfl, hfile, hidx, hfault, List.not_mem_nil, if_false]
    refine ⟨hmain, ?_⟩
    rw [hmain]
    have hnone : pre.find? (fun u => decide (u.id = todoID)) = none := by
      rw [List.find?_eq_none]
      intro u hu
      simp [hpre u hu]
    simp [List.find?_append, hnone, ht]

/-- Witness for `updateTodoStatus_spec`: toggling the only todo of a singleton
collection updates the record, its file and its index entry. -/
theorem updateTodoStatus_spec_witness :
    (TodoHandler.UpdateTodoStatus
        ⟨str "/b/todos", [⟨str "t0", str "auth", str "fix bug", false,
          str "/b/todos/a.md", 0, 0⟩]⟩
        [(str "/b/todos/a.md", str "- [ ] fix bug")]
        ⟨[(IndexTypeTodos, ⟨[]⟩)], []⟩ (str "t0") true 9).state.todos.find?
      (fun u => decide (u.id = str "t0")) =
    some ⟨str "t0", str "auth", str "fix bug", true, str "/b/todos/a.md", 0, 9⟩ := by
  have h := (updateTodoStatus_spec
      ⟨str "/b/todos", [⟨str "t0", str "auth", str "fix bug", false,
        str "/b/todos/a.md", 0, 0⟩]⟩
      [(str "/b/todos/a.md", str "- [ ] fix bug")]
      ⟨[(IndexTypeTodos, ⟨[]⟩)], []⟩ (str "t0") true 9).2
    [] [] ⟨str "t0", str "auth", str "fix bug", false, str "/b/todos/a.md", 0, 0⟩
    (str "- [ ] fix bug") ⟨[]⟩ rfl (by simp) rfl (by decide) (by decide) (by decide)
  exact h.2

/-- Claim C2: the reload coordinator runs the six domain loads in exactly the
order rules, knowledge, database, todos, history, backups — each invoked on
the search-manager state left by its predecessor — and the first load that
fails aborts the rest: its error is returned (wrapped with the domain name),
every earlier domain keeps its newly loaded state, and every later domain's
store is left untouched. -/
theorem loadAllData_fixed_order_first_error_aborts
    (bh : BuddyHandlers) (sm : SearchManager) (dirs : BuddyDirs) (now : GoTime) :
    (∀ e, (bh.rulesHandler.Load sm dirs.rulesDir).err = some e →
      bh.loadAllData sm dirs now =
        ({ bh with rulesHandler := (bh.rulesHandler.Load sm dirs.rulesDir).state },
          (bh.rulesHandler.Load sm dirs.rulesDir).sm,
          some (str "failed to load rules: " ++ e)))
    ∧ (∀ e, (bh.rulesHandler.Load sm dirs.rulesDir).err = none →
        (bh.knowledgeHandler.Load (bh.rulesHandler.Load sm dirs.rulesDir).sm
          dirs.knowledgeDir).err = some e →
      bh.loadAllData sm dirs now =
        ({ bh with rulesHandler := (bh.rulesHandler.Load sm dirs.rulesDir).state
                   knowledgeHandler := (bh.knowledgeHandler.Load
                     (bh.rulesHandler.Load sm dirs.rulesDir).sm dirs.knowledgeDir).state },
          (bh.knowledgeHandler.Load (bh.rulesHandler.Load sm dirs.rulesDir).sm
            dirs.knowledgeDir).sm,
          some (str "failed to load knowledge: " ++ e)))
    ∧ (∀ e, (bh.rulesHandler.Load sm dirs.rulesDir).err = none →
        (bh.knowledgeHandler.Load (bh.rulesHandler.Load sm dirs.rulesDir).sm
          dirs.knowledgeDir).err = none →
        (bh.databaseHandler.Load (bh.knowledgeHandler.Load
            (bh.rulesHandler.Load sm dirs.rulesDir).sm dirs.knowledgeDir).sm
          dirs.databaseDir now).err = some e →
      bh.loadAllData sm dirs now =
        ({ bh with rulesHandler := (bh.rulesHandler.Load sm dirs.rulesDir).state
                   knowledgeHandler := (bh.knowledgeHandler.Load
                     (bh.rulesHandler.Load sm dirs.rulesDir).sm dirs.knowledgeDir).state
                   databaseHandler := (bh.databaseHandler.Load (bh.knowledgeHandler.Load
                       (bh.rulesHandler.Load sm dirs.rulesDir).sm dirs.knowledgeDir).sm
                     dirs.databaseDir now).state },
          (bh.databaseHandler.Load (bh.knowledgeHandler.Load
              (bh.rulesHandler.Load sm dirs.rulesDir).sm dirs.knowledgeDir).sm
            dirs.databaseDir now).sm,
          some (str "failed to load database: " ++ e)))
    ∧ (∀ e, (bh.rulesHandler.Load sm dirs.rulesDir).err = none →
        (bh.knowledgeHandler.Load (bh.rulesHandler.Load sm dirs.rulesDir).sm
          dirs.knowledgeDir).err = none →
        (bh.databaseHandler.Load (bh.knowledgeHandler.Load
            (bh.rulesHandler.Load sm dirs.rulesDir).sm dirs.knowledgeDir).sm
          dirs.databaseDir now).err = none →
        (bh.todoHandler.Load (bh.databaseHandler.Load (bh.knowledgeHandler.Load
              (bh.rulesHandler.Load sm dirs.rulesDir).sm dirs.knowledgeDir).sm
            dirs.databaseDir now).sm dirs.todosDir now).err = some e →
      (bh.loadAllData sm dirs now).2.2 = some (str "failed to load todos: " ++ e)
      ∧ (bh.loadAllData sm dirs now).1.historyHandler = bh.historyHandler
      ∧ (bh.loadAllData sm dirs now).1.backupHandler = bh.backupHandler
      ∧ (bh.loadAllData sm dirs now).1.todoHandler =
          (bh.todoHandler.Load (bh.databaseHandler.Load (bh.knowledgeHandler.Load
                (bh.rulesHandler.Load sm dirs.rulesDir).sm dirs.knowledgeDir).sm
              dirs.databaseDir now).sm dirs.todosDir now).state)
    ∧ (∀ e, (bh.rulesHandler.Load sm dirs.rulesDir).err = none →
        (bh.knowledgeHandler.Load (bh.rulesHandler.Load sm dirs.rulesDir).sm
          dirs.knowledgeDir).err = none →
        (bh.databaseHandler.Load (bh.knowledgeHandler.Load
            (bh.rulesHandler.Load sm dirs.rulesDir).sm dirs.knowledgeDir).sm
          dirs.databaseDir now).err = none →
        (bh.todoHandler.Load (bh.databaseHandler.Load (bh.knowledgeHandler.Load
              (bh.rulesHandler.Load sm dirs.rulesDir).sm dirs.knowledgeDir).sm
            dirs.databaseDir now).sm dirs.todosDir now).err = none →
        (bh.historyHandler.Load (bh.todoHandler.Load (bh.databaseHandler.Load
              (bh.knowledgeHandler.Load (bh.rulesHandler.Load sm dirs.rulesDir).sm
                dirs.knowledgeDir).sm dirs.databaseDir now).sm dirs.todosDir now).sm
          dirs.historyDir).err = some e →
      (bh.loadAllData sm dirs now).2.2 = some (str "failed to load history: " ++ e)
      ∧ (bh.loadAllData sm dirs now).1.backupHandler = bh.backupHandler
      ∧ (bh.loadAllData sm dirs now).1.historyHandler =
          (bh.historyHandler.Load (bh.todoHandler.Load (bh.databaseHandler.Load
                (bh.knowledgeHandler.Load (bh.rulesHandler.Load sm dirs.rulesDir).sm
                  dirs.knowledgeDir).sm dirs.databaseDir now).sm dirs.todosDir now).sm
            dirs.historyDir).state)
    ∧ (∀ e, (bh.rulesHandler.Load sm dirs.rulesDir).err = none →
        (bh.knowledgeHandler.Load (bh.rulesHandler.Load sm dirs.rulesDir).sm
          dirs.knowledgeDir).err = none →
        (bh.databaseHandler.Load (bh.knowledgeHandler.Load
            (bh.rulesHandler.Load sm dirs.rulesDir).sm dirs.knowledgeDir).sm
          dirs.databaseDir now).err = none →
        (bh.todoHandler.Load (bh.databaseHandler.Load (bh.knowledgeHandler.Load
              (bh.rulesHandler.Load sm dirs.rulesDir).sm dirs.knowledgeDir).sm
            dirs.databaseDir now).sm dirs.todosDir now).err = none →
        (bh.historyHandler.Load (bh.todoHandler.Load (bh.databaseHandler.Load
              (bh.knowledgeHandler.Load (bh.rulesHandler.Load sm dirs.rulesDir).sm
                dirs.knowledgeDir).sm dirs.databaseDir now).sm dirs.todosDir now).sm
          dirs.historyDir).err = none →
        (bh.backupHandler.Load (bh.historyHandler.Load (bh.todoHandler.Load
              (bh.databaseHandler.Load (bh.knowledgeHandler.Load
                  (bh.rulesHandler.Load sm dirs.rulesDir).sm dirs.knowledgeDir).sm
                dirs.databaseDir now).sm dirs.todosDir now).sm dirs.historyDir).sm
          dirs.backupsDir).err = some e →
      (bh.loadAllData sm dirs now).2.2 = some (str "failed to load backups: " ++ e))
    ∧ ((bh.rulesHandler.Load sm dirs.rulesDir).err = none →
        (bh.knowledgeHandler.Load (bh.rulesHandler.Load sm dirs.rulesDir).sm
          dirs.knowledgeDir).err = none →
        (bh.databaseHandler.Load (bh.knowledgeHandler.Load
            (bh.rulesHandler.Load sm dirs.rulesDir).sm dirs.knowledgeDir).sm
          dirs.databaseDir now).err = none →
        (bh.todoHandler.Load (bh.databaseHandler.Load (bh.knowledgeHandler.Load
              (bh.rulesHandler.Load sm dirs.rulesDir).sm dirs.knowledgeDir).sm
            dirs.databaseDir now).sm dirs.todosDir now).err = none →
        (bh.historyHandler.Load (bh.todoHandler.Load (bh.databaseHandler.Load
              (bh.knowledgeHandler.Load (bh.rulesHandler.Load sm dirs.rulesDir).sm
                dirs.knowledgeDir).sm dirs.databaseDir now).sm dirs.todosDir now).sm
          dirs.historyDir).err = none →
        (bh.backupHandler.Load (bh.historyHandler.Load (bh.todoHandler.Load
              (bh.databaseHandler.Load (bh.knowledgeHandler.Load
                  (bh.rulesHandler.Load sm dirs.rulesDir).sm dirs.knowledgeDir).sm
                dirs.databaseDir now).sm dirs.todosDir now).sm dirs.historyDir).sm
          dirs.backupsDir).err = none →
      (bh.loadAllData sm dirs now).2.2 = none) := by
  refine ⟨?_, ?_, ?_, ?_, ?_, ?_, ?_⟩
  · intro e h1
    simp [BuddyHandlers.loadAllData, h1]
  · intro e h1 h2
    simp [BuddyHandlers.loadAllData, h1, h2]
  · intro e h1 h2 h3
    simp [BuddyHandlers.loadAllData, h1, h2, h3]
  · intro e h1 h2 h3 h4
    simp [BuddyHandlers.loadAllData, h1, h2, h3, h4]
  · intro e h1 h2 h3 h4 h5
    simp [BuddyHandlers.loadAllData, h1, h2, h3, h4, h5]
  · intro e h1 h2 h3 h4 h5 h6
    simp [BuddyHandlers.loadAllData, h1, h2, h3, h4, h5, h6]
  · intro h1 h2 h3 h4 h5 h6
    simp [BuddyHandlers.loadAllData, h1, h2, h3, h4, h5, h6]

/-- Witness for `loadAllData_fixed_order_first_error_aborts`: at the empty
stores and directories every stage succeeds and the reload returns no error. -/
theorem loadAllData_fixed_order_first_error_aborts_witness :
    (buddyEmpty.loadAllData ⟨[], []⟩ dirsEmpty 0).2.2 = none :=
  (loadAllData_fixed_order_first_error_aborts buddyEmpty ⟨[], []⟩ dirsEmpty
      0).2.2.2.2.2.2
    (by decide) (by decide) (by decide) (by decide) (by decide) (by decide)

/-- Claim C1, counterexample: a read before the failed load returns the prior
record, the load fails, and a read after the failed load returns the empty
collection — not the pre-load record set, because the load cleared the
collection before parsing. -/
theorem historyLoad_failure_discards_prior_collection_cex :
    (HistoryHandler.mk (str "/b/history") [historyPreEntry]).entries = [historyPreEntry]
    ∧ ((HistoryHandler.mk (str "/b/history") [historyPreEntry]).Load ⟨[], []⟩
        (some historyBadDir)).err.isSome = true
    ∧ ((HistoryHandler.mk (str "/b/history") [historyPreEntry]).Load ⟨[], []⟩
        (some historyBadDir)).state.entries = [] := by
  decide

/-- Claim C6, counterexample: in the rules load an error indexing a single
successfully parsed record is returned and fails the whole load (the record
was parsed — the partial collection holds it — yet `err` is set). -/
theorem rulesLoad_indexing_error_fails_load_cex :
    ((RulesHandler.mk (str "/b/rules") []).Load faultyRulesSM
        (some [ruleFileA])).err.isSome = true
    ∧ ((RulesHandler.mk (str "/b/rules") []).Load faultyRulesSM
        (some [ruleFileA])).state.rules.length = 1 := by
  decide

/-- Claim C7, counterexample: loading the same unchanged todo file at two
different instants yields record sets that are not identical — the records'
`UpdatedAt` field is the load-time clock, not a property of the file. -/
theorem todosLoad_records_differ_across_loads_cex :
    ((TodoHandler.mk (str "/b/todos") []).Load ⟨[], []⟩ (some [todoWalkA]) 0).state.todos
    ≠ ((TodoHandler.mk (str "/b/todos") []).Load ⟨[], []⟩ (some [todoWalkA]) 1).state.todos := by
  decide

/-- Claim C8, counterexample: a completed backups load keeps the metadata
file's order untouched, so an older backup stays positioned before a newer
one — the adjacent pair violates newest-first ordering. -/
theorem backupsLoad_not_sorted_newest_first_cex :
    ((BackupHandler.mk (str "/b/backups") []).Load ⟨[], []⟩
        ⟨some (.ok [backupOld, backupNew])⟩).err = none
    ∧ ((BackupHandler.mk (str "/b/backups") []).Load ⟨[], []⟩
        ⟨some (.ok [backupOld, backupNew])⟩).state.backups = [backupOld, backupNew]
    ∧ backupOld.timestamp < backupNew.timestamp := by
  decide
